import Mathlib

/-!
Shallow embedding of `src/numerical_method.py` (quadrature engine and root
solver) over exact rationals, together with theorems settling the frozen
claims about the natural-language specification.

Modelling conventions:
* numpy arrays of floats become `List ℚ`; all arithmetic identities are
  settled in exact arithmetic.
* Python exceptions become the `Err` inductive returned through `Except`.
  The `ValueError`s raised by the source are named after the spec's error
  taxonomy (`shapeError`, `lengthMismatchError`, `partitionError`,
  `noBracketError`).
* `np.delete` on an empty array raises `IndexError`; the step-size division
  by `len(x) - 1 = 0` on a one-point series poisons the result (numpy emits
  an invalid-value warning and yields a non-numeric value); both are
  modelled as explicit error outcomes (`indexError`, `zeroDivisionError`).
* The Python `for` loops of the root solvers become fuel recursion; the
  returned `RootOut` value records through which `return` statement the
  loop exited (the exact-root `else` branch, the tolerance check, or cap
  exhaustion after the printed warning).  Falling off a solver loop that
  never ran leaves the loop variable unbound in Python (`NameError`); this
  is the `nameError` outcome.
-/

namespace NumMethod

/-- Error outcomes of the Python code, named after the spec's taxonomy. -/
inductive Err where
  | shapeError
  | lengthMismatchError
  | partitionError
  | noBracketError
  | zeroDivisionError
  | indexError
  | nameError
  deriving DecidableEq

instance {ε α : Type} [DecidableEq ε] [DecidableEq α] : DecidableEq (Except ε α) :=
  fun u v =>
    match u, v with
    | .error a, .error b =>
      if h : a = b then .isTrue (by rw [h]) else .isFalse (by simp [h])
    | .ok a, .ok b =>
      if h : a = b then .isTrue (by rw [h]) else .isFalse (by simp [h])
    | .error _, .ok _ => .isFalse (by simp)
    | .ok _, .error _ => .isFalse (by simp)

/-- `NumericalIntegrate.__input_check`, lines 26-38, at the level of array
shapes: `ndim` and first-axis length of each argument.  The dimension test
of the source is `if x.ndim != 1 and y.ndim != 1` (both must fail). -/
def ndInputCheck (xdim ydim xlen ylen : Nat) : Except Err Unit :=
  if xdim ≠ 1 ∧ ydim ≠ 1 then .error .shapeError
  else if xlen ≠ ylen then .error .lengthMismatchError
  else .ok ()

/-- `__input_check` specialised to one-dimensional data (the `List ℚ`
embedding): for 1-D inputs `x.ndim = y.ndim = 1`, so the shape branch never
fires and only the length comparison remains. -/
def inputCheck (x y : List ℚ) : Except Err Unit :=
  if x.length ≠ y.length then .error .lengthMismatchError
  else .ok ()

/-- `np.delete(x,0) - np.delete(x,-1)`: elementwise `x[1:] - x[:-1]`. -/
def subintervals (x : List ℚ) : List ℚ :=
  List.zipWith (fun u v => u - v) x.tail x.dropLast

/-- `NumericalIntegrate.lriemann`, lines 40-46. -/
def lriemann (x y : List ℚ) : Except Err ℚ :=
  match inputCheck x y with
  | .error e => .error e
  | .ok () =>
    if x.length = 0 then .error .indexError
    else .ok (List.zipWith (fun s v => s * v) (subintervals x) y.dropLast).sum

/-- `NumericalIntegrate.rriemann`, lines 48-54. -/
def rriemann (x y : List ℚ) : Except Err ℚ :=
  match inputCheck x y with
  | .error e => .error e
  | .ok () =>
    if x.length = 0 then .error .indexError
    else .ok (List.zipWith (fun s v => s * v) (subintervals x) y.tail).sum

/-- The per-subinterval signed areas `0.5 * subinterval * (y[1:] + y[:-1])`
shared by `trapezoidal` (line 60) and `trapezoidal_upper_lower` (line 68). -/
def trapSubAreas (x y : List ℚ) : List ℚ :=
  List.zipWith (fun s p => 1/2 * s * p) (subintervals x)
    (List.zipWith (fun u v => u + v) y.tail y.dropLast)

/-- `NumericalIntegrate.trapezoidal`, lines 56-62. -/
def trapezoidal (x y : List ℚ) : Except Err ℚ :=
  match inputCheck x y with
  | .error e => .error e
  | .ok () =>
    if x.length = 0 then .error .indexError
    else .ok (trapSubAreas x y).sum

/-- `NumericalIntegrate.trapezoidal_upper_lower`, lines 64-71: the boolean
masks `sub_area[sub_area>0]` and `sub_area[sub_area<0]` become filters. -/
def trapezoidal_upper_lower (x y : List ℚ) : Except Err (ℚ × ℚ) :=
  match inputCheck x y with
  | .error e => .error e
  | .ok () =>
    if x.length = 0 then .error .indexError
    else
      let sub_area := trapSubAreas x y
      .ok ((sub_area.filter (fun v => 0 < v)).sum,
           (sub_area.filter (fun v => v < 0)).sum)

/-- Every `k`-th element of a list starting from its head: the stride of a
Python slice `l[:: k]`. -/
def everyNth (k : Nat) : List ℚ → List ℚ
  | [] => []
  | a :: rest => a :: everyNth k (rest.drop (k - 1))
  termination_by l => l.length
  decreasing_by
    simp only [List.length_drop, List.length_cons]
    omega

/-- The Python slice `l[s : -1 : k]`. -/
def sliceStep (l : List ℚ) (s k : Nat) : List ℚ :=
  everyNth k (l.dropLast.drop s)

/-- `NumericalIntegrate.simpson13`, lines 73-82.  The parity test
`(len(x)-1) % 2 != 0` is on a Python `int`, so the subtraction and modulus
are over `ℤ` (for an empty series `(-1) % 2 = 1`).  On a one-point series
all guards pass and the step `h` divides by `len(x) - 1 = 0`
(`zeroDivisionError`, see the modelling note above). -/
def simpson13 (x y : List ℚ) : Except Err ℚ :=
  match inputCheck x y with
  | .error e => .error e
  | .ok () =>
    if ((x.length : ℤ) - 1) % 2 ≠ 0 then .error .partitionError
    else if x.length = 1 then .error .zeroDivisionError
    else
      let h := (x.getLastD 0 - x.headD 0) / ((x.length : ℚ) - 1)
      let mid_area := ((sliceStep y 2 2).map (fun v => v * 2)).sum
                    + ((sliceStep y 1 2).map (fun v => v * 4)).sum
      .ok (h * (mid_area + y.headD 0 + y.getLastD 0) / 3)

/-- `NumericalIntegrate.simpson38`, lines 84-93; same conventions as
`simpson13`, with divisor 3. -/
def simpson38 (x y : List ℚ) : Except Err ℚ :=
  match inputCheck x y with
  | .error e => .error e
  | .ok () =>
    if ((x.length : ℤ) - 1) % 3 ≠ 0 then .error .partitionError
    else if x.length = 1 then .error .zeroDivisionError
    else
      let h := (x.getLastD 0 - x.headD 0) / ((x.length : ℚ) - 1)
      let mid_area := ((sliceStep y 3 3).map (fun v => v * 2)).sum
                    + ((sliceStep y 1 3).map (fun v => v * 3)).sum
                    + ((sliceStep y 2 3).map (fun v => v * 3)).sum
      .ok (h * 3 * (mid_area + y.headD 0 + y.getLastD 0) / 8)

/-- `NumericalIntegrate.autosimpson`, lines 95-104.  `x[:-3]` is
`x.take (x.length - 3)` and `x[-4:]` is `x.drop (x.length - 4)`; the head
call is evaluated first, so its error propagates first. -/
def autosimpson (x y : List ℚ) : Except Err ℚ :=
  match inputCheck x y with
  | .error e => .error e
  | .ok () =>
    if ((x.length : ℤ) - 1) % 2 = 0 then simpson13 x y
    else if ((x.length : ℤ) - 1) % 3 = 0 then simpson38 x y
    else
      match simpson13 (x.take (x.length - 3)) (y.take (y.length - 3)) with
      | .error e => .error e
      | .ok a1 =>
        match simpson38 (x.drop (x.length - 4)) (y.drop (y.length - 4)) with
        | .error e => .error e
        | .ok a2 => .ok (a1 + a2)

/-- How a root-solver call that passed its precondition came back: through
the exact-root `else` branch, through the `error <= tolerance` check, or by
exhausting the iteration cap (the printed warning) with the last computed
estimate. -/
inductive RootOut where
  | exact (r : ℚ)
  | withinTol (r : ℚ)
  | exhausted (r : ℚ)
  deriving DecidableEq

/-- The secant-line intercept `(ai*fbi - bi*fai)/(fbi - fai)` of
`regula_falsi`, line 138.  The cached values `fai`, `fbi` of the source
always equal `f` at the current endpoints, so they are recomputed here. -/
def rfXi (f : ℚ → ℚ) (a b : ℚ) : ℚ :=
  (a * f b - b * f a) / (f b - f a)

/-- The endpoint-replacement step of `regula_falsi`, lines 142-149:
`some (a', b')` is the updated bracket, `none` the early `return xi`. -/
def rfReplace (f : ℚ → ℚ) (a b xi : ℚ) : Option (ℚ × ℚ) :=
  if f a * f xi > 0 then some (xi, b)
  else if f b * f xi > 0 then some (a, xi)
  else none

/-- The endpoint-replacement step of `bisection`, lines 171-176. -/
def bisReplace (f : ℚ → ℚ) (a b m : ℚ) : Option (ℚ × ℚ) :=
  if f a * f m < 0 then some (a, m)
  else if f m * f b < 0 then some (m, b)
  else none

/-- The shared shape of the `for i in range(max_it)` loops of
`regula_falsi` and `bisection`: compute the next point, update the bracket
(or return it as an exact root), then test the tolerance.  The last
argument carries the estimate of the previous iteration; falling off the
loop with it still unset reproduces the `NameError` of `return xi` /
`return m` after a zero-iteration loop. -/
def bracketLoop (f : ℚ → ℚ) (pick : ℚ → ℚ → ℚ)
    (replace : ℚ → ℚ → ℚ → Option (ℚ × ℚ)) (tol : ℚ) :
    Nat → ℚ → ℚ → Option ℚ → Except Err RootOut
  | 0, _, _, none => .error .nameError
  | 0, _, _, some r => .ok (.exhausted r)
  | n + 1, a, b, _ =>
    let m := pick a b
    match replace a b m with
    | none => .ok (.exact m)
    | some (a', b') =>
      if |f m| ≤ tol then .ok (.withinTol m)
      else bracketLoop f pick replace tol n a' b' (some m)

/-- `NumericalRootFinding.regula_falsi`, lines 122-156. -/
def regula_falsi (f : ℚ → ℚ) (a b : ℚ) (max_it : Nat) (tolerance : ℚ) :
    Except Err RootOut :=
  if f a * f b ≥ 0 then .error .noBracketError
  else bracketLoop f (rfXi f) (rfReplace f) tolerance max_it a b none

/-- `NumericalRootFinding.bisection`, lines 158-181. -/
def bisection (f : ℚ → ℚ) (a b : ℚ) (max_it : Nat) (tolerance : ℚ) :
    Except Err RootOut :=
  if f a * f b ≥ 0 then .error .noBracketError
  else bracketLoop f (fun u v => (u + v) / 2) (bisReplace f) tolerance max_it a b none

/-- The loop of `NumericalRootFinding.secant`, lines 192-206: state is
`(xprev, x)`.  Python floats raise `ZeroDivisionError` on a zero divisor
`fx - func(xprev)`; there is no guard in the source. -/
def secLoop (f : ℚ → ℚ) (tol : ℚ) : Nat → ℚ → ℚ → Except Err RootOut
  | 0, _, x => .ok (.exhausted x)
  | n + 1, xprev, x =>
    if f x - f xprev = 0 then .error .zeroDivisionError
    else
      let x_new := x - f x * (x - xprev) / (f x - f xprev)
      if |f x_new| ≤ tol then .ok (.withinTol x_new)
      else secLoop f tol n x x_new

/-- `NumericalRootFinding.secant`, lines 183-206: no bracket precondition. -/
def secant (f : ℚ → ℚ) (a b : ℚ) (max_it : Nat) (tolerance : ℚ) :
    Except Err RootOut :=
  secLoop f tolerance max_it a b

/-- The sample series `x = y = [1, 2, ..., 13]` of the source's own driver
code (lines 232-233). -/
def sampleSeries : List ℚ := [1, 2, 3, 4, 5, 6, 7, 8, 9, 10, 11, 12, 13]

/-! ### Helper lemmas -/

theorem inputCheck_ok (x y : List ℚ) (h : x.length = y.length) :
    inputCheck x y = .ok () := by
  simp [inputCheck, h]

/-- Splitting a sum into its strictly positive and strictly negative parts
loses only zero summands. -/
theorem filter_pos_add_filter_neg_sum (l : List ℚ) :
    (l.filter (fun v => 0 < v)).sum + (l.filter (fun v => v < 0)).sum = l.sum := by
  induction l with
  | nil => simp
  | cons a t ih =>
    rcases lt_trichotomy a 0 with h | h | h
    · have h1 : ¬ (0:ℚ) < a := by linarith
      simp only [List.filter_cons, decide_eq_true_eq, h, h1, if_false, if_true,
        List.sum_cons]
      linarith
    · subst h
      simp only [List.filter_cons, decide_eq_true_eq, lt_irrefl, if_false,
        List.sum_cons, zero_add]
      exact ih
    · have h1 : ¬ a < (0:ℚ) := by linarith
      simp only [List.filter_cons, decide_eq_true_eq, h, h1, if_false, if_true,
        List.sum_cons]
      linarith

/-- A regula-falsi endpoint replacement keeps the sign change. -/
theorem rfReplace_some_bracket (f : ℚ → ℚ) (a b xi a' b' : ℚ)
    (h : f a * f b < 0) (hr : rfReplace f a b xi = some (a', b')) :
    f a' * f b' < 0 := by
  unfold rfReplace at hr
  split_ifs at hr with h1 h2
  · simp only [Option.some.injEq, Prod.mk.injEq] at hr
    obtain ⟨rfl, rfl⟩ := hr
    nlinarith [sq_nonneg (f a), mul_pos h1 (show (0:ℚ) < -(f a * f b) by linarith)]
  · simp only [Option.some.injEq, Prod.mk.injEq] at hr
    obtain ⟨rfl, rfl⟩ := hr
    nlinarith [sq_nonneg (f b), mul_pos h2 (show (0:ℚ) < -(f a * f b) by linarith)]

/-- The early-return branch of regula falsi is reachable from a sign-changing
bracket only at an exact root. -/
theorem rfReplace_none_root (f : ℚ → ℚ) (a b xi : ℚ)
    (h : f a * f b < 0) (hr : rfReplace f a b xi = none) : f xi = 0 := by
  unfold rfReplace at hr
  split_ifs at hr with h1 h2
  by_contra hne
  have hsq : 0 < f xi * f xi := mul_self_pos.2 hne
  nlinarith [mul_nonneg (show (0:ℚ) ≤ -(f a * f xi) by linarith [not_lt.1 h1])
    (show (0:ℚ) ≤ -(f b * f xi) by linarith [not_lt.1 h2])]

/-- A bisection endpoint replacement keeps the sign change. -/
theorem bisReplace_some_bracket (f : ℚ → ℚ) (a b m a' b' : ℚ)
    (h : f a * f b < 0) (hr : bisReplace f a b m = some (a', b')) :
    f a' * f b' < 0 := by
  unfold bisReplace at hr
  split_ifs at hr with h1 h2
  · simp only [Option.some.injEq, Prod.mk.injEq] at hr
    obtain ⟨rfl, rfl⟩ := hr
    exact h1
  · simp only [Option.some.injEq, Prod.mk.injEq] at hr
    obtain ⟨rfl, rfl⟩ := hr
    exact h2

/-- The early-return branch of bisection is reachable from a sign-changing
bracket only at an exact root. -/
theorem bisReplace_none_root (f : ℚ → ℚ) (a b m : ℚ)
    (h : f a * f b < 0) (hr : bisReplace f a b m = none) : f m = 0 := by
  unfold bisReplace at hr
  split_ifs at hr with h1 h2
  by_contra hne
  have hsq : 0 < f m * f m := mul_self_pos.2 hne
  nlinarith [mul_nonneg (show (0:ℚ) ≤ f a * f m by linarith [not_lt.1 h1])
    (show (0:ℚ) ≤ f m * f b by linarith [not_lt.1 h2])]

/-- The only error a bracket loop itself can produce is the `NameError` of a
zero-iteration run. -/
theorem bracketLoop_error_eq_nameError (f : ℚ → ℚ) (pick : ℚ → ℚ → ℚ)
    (replace : ℚ → ℚ → ℚ → Option (ℚ × ℚ)) (tol : ℚ) :
    ∀ (n : Nat) (a b : ℚ) (o : Option ℚ) (e : Err),
      bracketLoop f pick replace tol n a b o = .error e → e = .nameError := by
  intro n
  induction n with
  | zero =>
    intro a b o e h
    cases o with
    | none => simp only [bracketLoop, Except.error.injEq] at h; exact h.symm
    | some r => simp [bracketLoop] at h
  | succ n ih =>
    intro a b o e h
    rw [bracketLoop] at h
    rcases hrep : replace a b (pick a b) with _ | ⟨a', b'⟩ <;> rw [hrep] at h
    · simp at h
    · simp only at h
      split_ifs at h with htol
      exact ih a' b' (some (pick a b)) e h

/-- A return through the tolerance check satisfies the tolerance. -/
theorem bracketLoop_withinTol (f : ℚ → ℚ) (pick : ℚ → ℚ → ℚ)
    (replace : ℚ → ℚ → ℚ → Option (ℚ × ℚ)) (tol : ℚ) :
    ∀ (n : Nat) (a b : ℚ) (o : Option ℚ) (r : ℚ),
      bracketLoop f pick replace tol n a b o = .ok (.withinTol r) → |f r| ≤ tol := by
  intro n
  induction n with
  | zero =>
    intro a b o r h
    cases o <;> simp [bracketLoop] at h
  | succ n ih =>
    intro a b o r h
    rw [bracketLoop] at h
    rcases hrep : replace a b (pick a b) with _ | ⟨a', b'⟩ <;> rw [hrep] at h
    · simp at h
    · simp only at h
      split_ifs at h with htol
      · simp only [Except.ok.injEq, RootOut.withinTol.injEq] at h
        exact h ▸ htol
      · exact ih a' b' (some (pick a b)) r h

/-- A return through the exact-root branch happens only at a point where the
residual is zero, provided each replacement preserves the sign change and the
no-replacement case forces a zero residual. -/
theorem bracketLoop_exact (f : ℚ → ℚ) (pick : ℚ → ℚ → ℚ)
    (replace : ℚ → ℚ → ℚ → Option (ℚ × ℚ)) (tol : ℚ)
    (hsome : ∀ a b a' b', f a * f b < 0 → replace a b (pick a b) = some (a', b') →
      f a' * f b' < 0)
    (hnone : ∀ a b, f a * f b < 0 → replace a b (pick a b) = none → f (pick a b) = 0) :
    ∀ (n : Nat) (a b : ℚ) (o : Option ℚ) (r : ℚ), f a * f b < 0 →
      bracketLoop f pick replace tol n a b o = .ok (.exact r) → f r = 0 := by
  intro n
  induction n with
  | zero =>
    intro a b o r hab h
    cases o <;> simp [bracketLoop] at h
  | succ n ih =>
    intro a b o r hab h
    rw [bracketLoop] at h
    rcases hrep : replace a b (pick a b) with _ | ⟨a', b'⟩ <;> rw [hrep] at h
    · simp only [Except.ok.injEq, RootOut.exact.injEq] at h
      exact h ▸ hnone a b hab hrep
    · simp only at h
      split_ifs at h with htol
      · simp at h
      · exact ih a' b' (some (pick a b)) r (hsome a b a' b' hab hrep) h

/-- Once an estimate has been computed, cap exhaustion returns it: the
`NameError` outcome is unreachable from a `some` state. -/
theorem bracketLoop_some_ne_nameError (f : ℚ → ℚ) (pick : ℚ → ℚ → ℚ)
    (replace : ℚ → ℚ → ℚ → Option (ℚ × ℚ)) (tol : ℚ) :
    ∀ (n : Nat) (a b x : ℚ),
      bracketLoop f pick replace tol n a b (some x) ≠ .error .nameError := by
  intro n
  induction n with
  | zero => intro a b x h; simp [bracketLoop] at h
  | succ n ih =>
    intro a b x h
    rw [bracketLoop] at h
    rcases hrep : replace a b (pick a b) with _ | ⟨a', b'⟩ <;> rw [hrep] at h
    · simp at h
    · simp only at h
      split_ifs at h with htol
      exact ih a' b' (pick a b) h

/-- With at least one permitted iteration the bracket loops never reach the
`NameError` outcome. -/
theorem bracketLoop_succ_ne_nameError (f : ℚ → ℚ) (pick : ℚ → ℚ → ℚ)
    (replace : ℚ → ℚ → ℚ → Option (ℚ × ℚ)) (tol : ℚ) (n : Nat) (a b : ℚ)
    (o : Option ℚ) :
    bracketLoop f pick replace tol (n + 1) a b o ≠ .error .nameError := by
  intro h
  rw [bracketLoop] at h
  rcases hrep : replace a b (pick a b) with _ | ⟨a', b'⟩ <;> rw [hrep] at h
  · simp at h
  · simp only at h
    split_ifs at h with htol
    exact bracketLoop_some_ne_nameError f pick replace tol n a' b' (pick a b) h

/-- A normal secant return satisfies the tolerance. -/
theorem secLoop_withinTol (f : ℚ → ℚ) (tol : ℚ) :
    ∀ (n : Nat) (xp x r : ℚ),
      secLoop f tol n xp x = .ok (.withinTol r) → |f r| ≤ tol := by
  intro n
  induction n with
  | zero => intro xp x r h; simp [secLoop] at h
  | succ n ih =>
    intro xp x r h
    rw [secLoop] at h
    split_ifs at h with hz
    simp only at h
    split_ifs at h with htol
    · simp only [Except.ok.injEq, RootOut.withinTol.injEq] at h
      exact h ▸ htol
    · exact ih x _ r h

/-! ### Claim theorems -/

/-- Claim C2 (code bug): the dimension test of `__input_check` is
`x.ndim != 1 and y.ndim != 1`, so a call in which only one of the two inputs
is not one-dimensional (here `x` with `ndim = 2`, `y` with `ndim = 1`, equal
lengths) raises no `ShapeError` at all and the validation succeeds, contrary
to the claim and to the code's own error message ("Either x or y is not a
1-D array"); only when both inputs are non-1-D does the error fire. -/
theorem C2_shape_check_requires_both :
    ndInputCheck 2 1 3 3 = .ok () ∧ ndInputCheck 2 2 3 3 = .error .shapeError := by
  constructor <;> rfl

/-- Claim C3 (counterexample): on `x = y = [1, 2, ..., 13]` the left Riemann
rule returns 78, not the claimed 66 (the claimed quadruple 66/78/72/72 is
what the rules produce on `[0, 1, ..., 12]`). -/
theorem C3_counterexample :
    lriemann sampleSeries sampleSeries = .ok 78 ∧ (78 : ℚ) ≠ 66 := by
  constructor
  · norm_num [lriemann, inputCheck, subintervals, sampleSeries]
  · norm_num

/-- Claim C3 (amended): on the sample series `x = y = [1, 2, ..., 13]` the
left Riemann rule returns 78, the right Riemann rule returns 90, the
trapezoidal rule returns 84, and Simpson 1/3 returns 84 (its 12 subintervals
being even, so no `PartitionError` is raised). -/
theorem C3_sample_series_values :
    lriemann sampleSeries sampleSeries = .ok 78 ∧
    rriemann sampleSeries sampleSeries = .ok 90 ∧
    trapezoidal sampleSeries sampleSeries = .ok 84 ∧
    simpson13 sampleSeries sampleSeries = .ok 84 := by
  refine ⟨?_, ?_, ?_, ?_⟩
  · norm_num [lriemann, inputCheck, subintervals, sampleSeries]
  · norm_num [rriemann, inputCheck, subintervals, sampleSeries]
  · norm_num [trapezoidal, trapSubAreas, inputCheck, subintervals, sampleSeries]
  · norm_num [simpson13, inputCheck, sampleSeries, sliceStep, everyNth]

/-- Claim C4: on a validated series (equal lengths), Simpson 1/3 raises
`PartitionError` exactly when the subinterval count `len(x) - 1` (a Python
`int`, hence the `ℤ` cast) is odd. -/
theorem C4_simpson13_partition_iff (x y : List ℚ) (h : x.length = y.length) :
    simpson13 x y = .error .partitionError ↔ Odd ((x.length : ℤ) - 1) := by
  have hin : inputCheck x y = .ok () := inputCheck_ok x y h
  rw [show Odd ((x.length : ℤ) - 1) ↔ ((x.length : ℤ) - 1) % 2 ≠ 0 by
    rw [Int.odd_iff]; omega]
  simp only [simpson13, hin]
  by_cases hp : ((x.length : ℤ) - 1) % 2 ≠ 0
  · simp [hp]
  · rw [if_neg hp]
    by_cases h1 : x.length = 1 <;> simp [h1, hp]

/-- Claim C4 (witness): four points give three subintervals, an odd count,
and the call indeed fails with `PartitionError`. -/
theorem C4_witness :
    simpson13 [1, 2, 3, 4] [1, 2, 3, 4] = .error .partitionError :=
  (C4_simpson13_partition_iff [1, 2, 3, 4] [1, 2, 3, 4] rfl).mpr ⟨1, by norm_num⟩

/-- Claim C5: regula falsi and bisection raise `NoBracketError` exactly when
`f(a) * f(b) ≥ 0` — the test precedes the loop, and a zero at either
endpoint makes the product zero, hence is rejected rather than returned. -/
theorem C5_no_bracket_iff (f : ℚ → ℚ) (a b : ℚ) (n : Nat) (tol : ℚ) :
    (regula_falsi f a b n tol = .error .noBracketError ↔ 0 ≤ f a * f b) ∧
    (bisection f a b n tol = .error .noBracketError ↔ 0 ≤ f a * f b) := by
  constructor
  · unfold regula_falsi
    by_cases hb : 0 ≤ f a * f b
    · simp [hb]
    · rw [if_neg (by simpa using hb)]
      simp only [hb, iff_false]
      intro h
      exact absurd (bracketLoop_error_eq_nameError f _ _ tol n a b none _ h) (by simp)
  · unfold bisection
    by_cases hb : 0 ≤ f a * f b
    · simp [hb]
    · rw [if_neg (by simpa using hb)]
      simp only [hb, iff_false]
      intro h
      exact absurd (bracketLoop_error_eq_nameError f _ _ tol n a b none _ h) (by simp)

/-- Claim C6: whenever the upper/lower trapezoidal variant returns the pair
`(u, l)`, the plain trapezoidal rule on the same series returns `u + l`
(zero-area subintervals, excluded from both filters, contribute zero). -/
theorem C6_upper_lower_sum (x y : List ℚ) (u l : ℚ)
    (h : trapezoidal_upper_lower x y = .ok (u, l)) :
    trapezoidal x y = .ok (u + l) := by
  unfold trapezoidal_upper_lower at h
  unfold trapezoidal
  rcases hin : inputCheck x y with e | u'
  · rw [hin] at h; simp at h
  · cases u'
    rw [hin] at h
    simp only at h ⊢
    by_cases h0 : x.length = 0
    · rw [if_pos h0] at h; simp at h
    · rw [if_neg h0] at h ⊢
      simp only [Except.ok.injEq, Prod.mk.injEq] at h
      obtain ⟨hu, hl⟩ := h
      rw [← hu, ← hl, filter_pos_add_filter_neg_sum]

/-- Claim C6 (witness): on `x = [0,1,2]`, `y = [1,3,-5]` the split is
`(2, -1)` and the trapezoidal rule returns their sum. -/
theorem C6_witness : trapezoidal [0, 1, 2] [1, 3, -5] = .ok (2 + -1) :=
  C6_upper_lower_sum [0, 1, 2] [1, 3, -5] 2 (-1) (by
    norm_num [trapezoidal_upper_lower, trapSubAreas, inputCheck, subintervals,
      List.filter])

/-- Claim C9: the secant update divides by `f(x) - f(xprev)` unguarded; with
`f(z) = z²` and the accepted starting points `a = -1`, `b = 1` (no bracket
precondition is checked) the very first iteration hits
`f(x) = f(xprev)` and the call fails with the division error instead of
returning an estimate. -/
theorem C9_secant_division_by_zero :
    secant (fun z => z * z) (-1) 1 1000 (1 / 10000) = .error .zeroDivisionError := by
  show secLoop _ _ (999 + 1) (-1) 1 = _
  rw [secLoop]
  norm_num

/-- Claim C10: a single-point series passes the validation (equal lengths,
1-D) and the evenness check (`0` subintervals are even), and Simpson 1/3
then divides the step `h = (x[-1] - x[0]) / (len(x) - 1)` by zero: no check
ever enforces the documented `length ≥ 2` invariant. -/
theorem C10_simpson13_single_point (a c : ℚ) :
    inputCheck [a] [c] = .ok () ∧
    ndInputCheck 1 1 1 1 = .ok () ∧
    (((([a] : List ℚ).length : ℤ) - 1) % 2 = 0) ∧
    simpson13 [a] [c] = .error .zeroDivisionError := by
  refine ⟨rfl, rfl, rfl, rfl⟩

/-- Claim C8: in both regula falsi and bisection, the sign-change invariant
`f(a)·f(b) < 0` is preserved by the endpoint-replacement step of every
iteration: whenever the step replaces an endpoint (rather than returning the
new point as an exact root), the updated bracket still satisfies it.  Since
the property is inductive, it holds at every state reachable from a valid
initial bracket. -/
theorem C8_bracket_invariant_step (f : ℚ → ℚ) (a b : ℚ) (h : f a * f b < 0) :
    (∀ a' b', rfReplace f a b (rfXi f a b) = some (a', b') → f a' * f b' < 0) ∧
    (∀ a' b', bisReplace f a b ((a + b) / 2) = some (a', b') → f a' * f b' < 0) :=
  ⟨fun a' b' hr => rfReplace_some_bracket f a b (rfXi f a b) a' b' h hr,
   fun a' b' hr => bisReplace_some_bracket f a b ((a + b) / 2) a' b' h hr⟩

/-- Claim C8 (witness): for `f(z) = z² - 2` on the bracket `(0, 2)` the
regula-falsi intercept is `1` and the step replaces `a`, giving the bracket
`(1, 2)` on which the sign change still holds. -/
theorem C8_witness :
    (fun z => z * z - 2) 1 * (fun z => z * z - 2) 2 < (0 : ℚ) :=
  (C8_bracket_invariant_step (fun z => z * z - 2) 0 2 (by norm_num)).1 1 2
    (by norm_num [rfReplace, rfXi])

/-- Claim C1 (amended): for a nonnegative tolerance and at least one
permitted iteration, a normal return of any of the three methods satisfies
`|f(r)| ≤ tolerance`; the exact-root branch of the bracketing methods is
reachable only with residual exactly zero; and cap exhaustion is an
observable outcome (`RootOut.exhausted`), never the `NameError` crash. -/
theorem C1_return_contract (f : ℚ → ℚ) (a b : ℚ) (n : Nat) (tol : ℚ)
    (htol : 0 ≤ tol) (hn : 1 ≤ n) :
    (f a * f b < 0 →
      (∀ r, regula_falsi f a b n tol = .ok (.withinTol r) → |f r| ≤ tol) ∧
      (∀ r, regula_falsi f a b n tol = .ok (.exact r) → f r = 0 ∧ |f r| ≤ tol) ∧
      regula_falsi f a b n tol ≠ .error .nameError ∧
      (∀ r, bisection f a b n tol = .ok (.withinTol r) → |f r| ≤ tol) ∧
      (∀ r, bisection f a b n tol = .ok (.exact r) → f r = 0 ∧ |f r| ≤ tol) ∧
      bisection f a b n tol ≠ .error .nameError) ∧
    (∀ r, secant f a b n tol = .ok (.withinTol r) → |f r| ≤ tol) := by
  constructor
  · intro hbr
    have hge : ¬ (f a * f b ≥ 0) := not_le.mpr hbr
    have hrf : regula_falsi f a b n tol
        = bracketLoop f (rfXi f) (rfReplace f) tol n a b none := by
      unfold regula_falsi; rw [if_neg hge]
    have hbi : bisection f a b n tol
        = bracketLoop f (fun u v => (u + v) / 2) (bisReplace f) tol n a b none := by
      unfold bisection; rw [if_neg hge]
    obtain ⟨m, rfl⟩ : ∃ m, n = m + 1 := ⟨n - 1, by omega⟩
    refine ⟨?_, ?_, ?_, ?_, ?_, ?_⟩
    · intro r hr
      exact bracketLoop_withinTol f _ _ tol _ a b none r (hrf ▸ hr)
    · intro r hr
      have h0 : f r = 0 := bracketLoop_exact f _ _ tol
        (fun u v u' v' huv => rfReplace_some_bracket f u v _ u' v' huv)
        (fun u v huv => rfReplace_none_root f u v _ huv)
        _ a b none r hbr (hrf ▸ hr)
      exact ⟨h0, by rw [h0]; simpa using htol⟩
    · rw [hrf]
      exact bracketLoop_succ_ne_nameError f _ _ tol m a b none
    · intro r hr
      exact bracketLoop_withinTol f _ _ tol _ a b none r (hbi ▸ hr)
    · intro r hr
      have h0 : f r = 0 := bracketLoop_exact f _ _ tol
        (fun u v u' v' huv => bisReplace_some_bracket f u v _ u' v' huv)
        (fun u v huv => bisReplace_none_root f u v _ huv)
        _ a b none r hbr (hbi ▸ hr)
      exact ⟨h0, by rw [h0]; simpa using htol⟩
    · rw [hbi]
      exact bracketLoop_succ_ne_nameError f _ _ tol m a b none
  · intro r hr
    exact secLoop_withinTol f tol n a b r hr

/-- Claim C1 (witness): with `f(z) = z` on `(-1, 1)`, five iterations and
tolerance `0`, regula falsi does not crash with the `NameError` outcome. -/
theorem C1_witness :
    regula_falsi (fun z => (z : ℚ)) (-1) 1 5 0 ≠ .error .nameError :=
  (((C1_return_contract (fun z => (z : ℚ)) (-1) 1 5 0 le_rfl
    (by norm_num)).1 (by norm_num)).2.2.1)

/-- Claim C1 (counterexample): as stated the claim fails at two edge points.
With tolerance `-1` and `f(z) = z` on `(-1, 1)` the first intercept is the
exact root `0`, the call returns normally, yet `|f(0)| = 0 > -1`, so a
normal return need not satisfy `|f(r)| ≤ tolerance` when the tolerance is
negative.  With `max_it = 0` the bracketing loop body never runs and the
`return xi` after the warning hits an unbound variable (`NameError`), a hard
failure instead of a best-effort estimate. -/
theorem C1_counterexample :
    (regula_falsi (fun z => (z : ℚ)) (-1) 1 1000 (-1) = .ok (.exact 0) ∧
      ¬ |(fun z => (z : ℚ)) 0| ≤ (-1 : ℚ)) ∧
    regula_falsi (fun z => (z : ℚ)) (-1) 1 0 (1 / 10000) = .error .nameError := by
  refine ⟨⟨?_, by norm_num⟩, ?_⟩
  · have h : regula_falsi (fun z => (z : ℚ)) (-1) 1 1000 (-1)
        = bracketLoop (fun z => (z : ℚ)) (rfXi (fun z => (z : ℚ)))
          (rfReplace (fun z => (z : ℚ))) (-1) 1000 (-1) 1 none := by
      unfold regula_falsi; rw [if_neg (by norm_num)]
    rw [h, show (1000 : ℕ) = 999 + 1 from rfl, bracketLoop]
    norm_num [rfXi, rfReplace]
  · have h : regula_falsi (fun z => (z : ℚ)) (-1) 1 0 (1 / 10000)
        = bracketLoop (fun z => (z : ℚ)) (rfXi (fun z => (z : ℚ)))
          (rfReplace (fun z => (z : ℚ))) (1 / 10000) 0 (-1) 1 none := by
      unfold regula_falsi; rw [if_neg (by norm_num)]
    rw [h, bracketLoop]

/-! ### List computation lemmas for the constant-series claim -/

theorem drop_replicate_q (n m : Nat) (c : ℚ) :
    (List.replicate m c).drop n = List.replicate (m - n) c := by
  induction n generalizing m with
  | zero => simp
  | succ n ih =>
    cases m with
    | zero => simp
    | succ m =>
      rw [List.replicate_succ, List.drop_succ_cons, ih, Nat.succ_sub_succ]

theorem take_replicate_q (n m : Nat) (c : ℚ) (h : n ≤ m) :
    (List.replicate m c).take n = List.replicate n c := by
  induction n generalizing m with
  | zero => simp
  | succ n ih =>
    cases m with
    | zero => omega
    | succ m =>
      rw [List.replicate_succ, List.take_succ_cons, ih m (by omega),
        ← List.replicate_succ]

theorem getElem?_drop_q (l : List ℚ) (j i : Nat) : (l.drop j)[i]? = l[j + i]? := by
  induction j generalizing l with
  | zero => simp
  | succ j ih =>
    cases l with
    | nil => simp
    | cons a t =>
      rw [List.drop_succ_cons, ih, Nat.succ_add, List.getElem?_cons_succ]

theorem getLastD_replicate (n : Nat) (c d : ℚ) :
    (List.replicate (n + 1) c).getLastD d = c := by
  induction n generalizing d with
  | zero => rfl
  | succ n ih =>
    rw [List.replicate_succ, List.getLastD_cons]
    exact ih c

theorem everyNth_two_replicate (c : ℚ) :
    ∀ m, everyNth 2 (List.replicate m c) = List.replicate ((m + 1) / 2) c := by
  intro m
  induction m using Nat.strong_induction_on with
  | _ m ih =>
    match m with
    | 0 => simp [everyNth]
    | s + 1 =>
      rw [List.replicate_succ, everyNth, drop_replicate_q, ih (s - (2 - 1)) (by omega),
        ← List.replicate_succ]
      congr 1
      omega

theorem everyNth_three_replicate (c : ℚ) :
    ∀ m, everyNth 3 (List.replicate m c) = List.replicate ((m + 2) / 3) c := by
  intro m
  induction m using Nat.strong_induction_on with
  | _ m ih =>
    match m with
    | 0 => simp [everyNth]
    | s + 1 =>
      rw [List.replicate_succ, everyNth, drop_replicate_q, ih (s - (3 - 1)) (by omega),
        ← List.replicate_succ]
      congr 1
      omega

theorem sum_map_mul_replicate (q : Nat) (c w : ℚ) :
    ((List.replicate q c).map (fun v => v * w)).sum = (q : ℚ) * (c * w) := by
  rw [List.map_replicate, List.sum_replicate, nsmul_eq_mul]

/-- Telescoping sum of consecutive differences, shifted by one position. -/
theorem zipWith_sub_shift_sum (l : List ℚ) (a : ℚ) :
    (List.zipWith (fun u v => u - v) l (a :: l.dropLast)).sum = l.getLastD a - a := by
  induction l generalizing a with
  | nil => simp
  | cons b t ih =>
    cases t with
    | nil => simp
    | cons u t' =>
      rw [List.dropLast_cons₂, List.zipWith_cons_cons, List.sum_cons, ih b,
        List.getLastD_cons a b (u :: t')]
      ring

theorem subintervals_sum (x : List ℚ) (hx : x ≠ []) :
    (subintervals x).sum = x.getLastD 0 - x.headD 0 := by
  match x, hx with
  | a :: t, _ =>
    cases t with
    | nil => simp [subintervals]
    | cons u t' =>
      show (List.zipWith _ (u :: t') ((a :: u :: t').dropLast)).sum = _
      rw [List.dropLast_cons₂, zipWith_sub_shift_sum (u :: t') a,
        List.getLastD_cons 0 a (u :: t')]
      norm_num

theorem subintervals_length (x : List ℚ) :
    (subintervals x).length = x.length - 1 := by
  simp [subintervals]

theorem zipWith_mul_replicate_sum (s : List ℚ) (c : ℚ) (m : Nat) (hm : s.length ≤ m) :
    (List.zipWith (fun u v => u * v) s (List.replicate m c)).sum = c * s.sum := by
  induction s generalizing m with
  | nil => simp
  | cons a t ih =>
    cases m with
    | zero => simp at hm
    | succ m =>
      rw [List.replicate_succ, List.zipWith_cons_cons, List.sum_cons, List.sum_cons,
        ih m (by simpa using hm)]
      ring

theorem zipWith_trap_replicate_sum (s : List ℚ) (d : ℚ) (m : Nat) (hm : s.length ≤ m) :
    (List.zipWith (fun u p => 1/2 * u * p) s (List.replicate m d)).sum
      = 1/2 * d * s.sum := by
  induction s generalizing m with
  | nil => simp
  | cons a t ih =>
    cases m with
    | zero => simp at hm
    | succ m =>
      rw [List.replicate_succ, List.zipWith_cons_cons, List.sum_cons, List.sum_cons,
        ih m (by simpa using hm)]
      ring

theorem headD_take (x : List ℚ) (k : Nat) (hk : 1 ≤ k) :
    (x.take k).headD 0 = x.headD 0 := by
  cases x with
  | nil => simp
  | cons a t =>
    cases k with
    | zero => omega
    | succ k => simp [List.take_succ_cons]

theorem getLastD_take (x : List ℚ) (k : Nat) (hk1 : 1 ≤ k) (hk2 : k ≤ x.length) :
    (x.take k).getLastD 0 = (x[k - 1]?).getD 0 := by
  rw [List.getLastD_eq_getLast?, List.getLast?_eq_getElem?, List.length_take]
  rw [show min k x.length = k by omega]
  rw [List.getElem?_take_of_lt (by omega : k - 1 < k)]

theorem headD_drop (x : List ℚ) (j : Nat) :
    (x.drop j).headD 0 = (x[j]?).getD 0 := by
  rw [List.headD_eq_head?_getD, List.head?_eq_getElem?, getElem?_drop_q, Nat.add_zero]

theorem getLastD_drop (x : List ℚ) (j : Nat) (hj : j < x.length) :
    (x.drop j).getLastD 0 = x.getLastD 0 := by
  rw [List.getLastD_eq_getLast?, List.getLastD_eq_getLast?, List.getLast?_eq_getElem?,
    List.getLast?_eq_getElem?, List.length_drop, getElem?_drop_q]
  congr 2
  omega

/-! ### Per-rule lemmas for constant sample series -/

theorem lriemann_const (x : List ℚ) (c v : ℚ)
    (h : lriemann x (List.replicate x.length c) = .ok v) :
    v = c * (x.getLastD 0 - x.headD 0) := by
  have hin : inputCheck x (List.replicate x.length c) = .ok () :=
    inputCheck_ok _ _ (by simp)
  unfold lriemann at h
  rw [hin] at h
  simp only at h
  split_ifs at h with h0
  simp only [Except.ok.injEq] at h
  rw [← h, List.dropLast_replicate,
    zipWith_mul_replicate_sum _ _ _ (by rw [subintervals_length]),
    subintervals_sum x (by intro hnil; exact h0 (by simp [hnil]))]

theorem rriemann_const (x : List ℚ) (c v : ℚ)
    (h : rriemann x (List.replicate x.length c) = .ok v) :
    v = c * (x.getLastD 0 - x.headD 0) := by
  have hin : inputCheck x (List.replicate x.length c) = .ok () :=
    inputCheck_ok _ _ (by simp)
  unfold rriemann at h
  rw [hin] at h
  simp only at h
  split_ifs at h with h0
  simp only [Except.ok.injEq] at h
  rw [← h, List.tail_replicate,
    zipWith_mul_replicate_sum _ _ _ (by rw [subintervals_length]),
    subintervals_sum x (by intro hnil; exact h0 (by simp [hnil]))]

theorem trapSubAreas_replicate_sum (x : List ℚ) (c : ℚ) (hx : x ≠ []) :
    (trapSubAreas x (List.replicate x.length c)).sum
      = c * (x.getLastD 0 - x.headD 0) := by
  unfold trapSubAreas
  rw [List.tail_replicate, List.dropLast_replicate, List.zipWith_replicate',
    zipWith_trap_replicate_sum _ _ _ (by rw [subintervals_length]),
    subintervals_sum x hx]
  ring

theorem trapezoidal_const (x : List ℚ) (c v : ℚ)
    (h : trapezoidal x (List.replicate x.length c) = .ok v) :
    v = c * (x.getLastD 0 - x.headD 0) := by
  have hin : inputCheck x (List.replicate x.length c) = .ok () :=
    inputCheck_ok _ _ (by simp)
  unfold trapezoidal at h
  rw [hin] at h
  simp only at h
  split_ifs at h with h0
  simp only [Except.ok.injEq] at h
  rw [← h, trapSubAreas_replicate_sum x c (by intro hnil; exact h0 (by simp [hnil]))]

theorem trapezoidal_upper_lower_const (x : List ℚ) (c u l : ℚ)
    (h : trapezoidal_upper_lower x (List.replicate x.length c) = .ok (u, l)) :
    u + l = c * (x.getLastD 0 - x.headD 0) := by
  have hin : inputCheck x (List.replicate x.length c) = .ok () :=
    inputCheck_ok _ _ (by simp)
  unfold trapezoidal_upper_lower at h
  rw [hin] at h
  simp only at h
  split_ifs at h with h0
  simp only [Except.ok.injEq, Prod.mk.injEq] at h
  obtain ⟨hu, hl⟩ := h
  rw [← hu, ← hl, filter_pos_add_filter_neg_sum,
    trapSubAreas_replicate_sum x c (by intro hnil; exact h0 (by simp [hnil]))]

theorem simpson13_const (x : List ℚ) (c v : ℚ)
    (h : simpson13 x (List.replicate x.length c) = .ok v) :
    v = c * (x.getLastD 0 - x.headD 0) := by
  have hin : inputCheck x (List.replicate x.length c) = .ok () :=
    inputCheck_ok _ _ (by simp)
  unfold simpson13 at h
  rw [hin] at h
  simp only at h
  split_ifs at h with hp h1
  simp only [not_not] at hp
  obtain ⟨q, hN, hq1⟩ : ∃ q : Nat, x.length = 2 * q + 1 ∧ 1 ≤ q :=
    ⟨x.length / 2, by omega, by omega⟩
  simp only [Except.ok.injEq] at h
  rw [← h]
  have e1 : sliceStep (List.replicate x.length c) 2 2 = List.replicate (q - 1) c := by
    unfold sliceStep
    rw [List.dropLast_replicate, drop_replicate_q, everyNth_two_replicate]
    congr 1
    omega
  have e2 : sliceStep (List.replicate x.length c) 1 2 = List.replicate q c := by
    unfold sliceStep
    rw [List.dropLast_replicate, drop_replicate_q, everyNth_two_replicate]
    congr 1
    omega
  have e3 : (List.replicate x.length c).headD 0 = c := by
    rw [hN]
    rfl
  have e4 : (List.replicate x.length c).getLastD 0 = c := by
    rw [hN]
    exact getLastD_replicate _ c 0
  rw [e1, e2, e3, e4, sum_map_mul_replicate, sum_map_mul_replicate]
  have hcast : ((q : ℚ) - 1) = ((q - 1 : Nat) : ℚ) := by
    rw [Nat.cast_sub hq1]
    norm_num
  rw [← hcast, hN]
  have hq0 : ((2 * q + 1 : ℕ) : ℚ) - 1 ≠ 0 := by
    push_cast
    have : (1 : ℚ) ≤ (q : ℚ) := by exact_mod_cast hq1
    intro hcon
    nlinarith
  field_simp
  ring

theorem simpson38_const (x : List ℚ) (c v : ℚ)
    (h : simpson38 x (List.replicate x.length c) = .ok v) :
    v = c * (x.getLastD 0 - x.headD 0) := by
  have hin : inputCheck x (List.replicate x.length c) = .ok () :=
    inputCheck_ok _ _ (by simp)
  unfold simpson38 at h
  rw [hin] at h
  simp only at h
  split_ifs at h with hp h1
  simp only [not_not] at hp
  obtain ⟨t, hN, ht1⟩ : ∃ t : Nat, x.length = 3 * t + 1 ∧ 1 ≤ t :=
    ⟨x.length / 3, by omega, by omega⟩
  simp only [Except.ok.injEq] at h
  rw [← h]
  have e1 : sliceStep (List.replicate x.length c) 3 3 = List.replicate (t - 1) c := by
    unfold sliceStep
    rw [List.dropLast_replicate, drop_replicate_q, everyNth_three_replicate]
    congr 1
    omega
  have e2 : sliceStep (List.replicate x.length c) 1 3 = List.replicate t c := by
    unfold sliceStep
    rw [List.dropLast_replicate, drop_replicate_q, everyNth_three_replicate]
    congr 1
    omega
  have e3 : sliceStep (List.replicate x.length c) 2 3 = List.replicate t c := by
    unfold sliceStep
    rw [List.dropLast_replicate, drop_replicate_q, everyNth_three_replicate]
    congr 1
    omega
  have e4 : (List.replicate x.length c).headD 0 = c := by
    rw [hN]
    rfl
  have e5 : (List.replicate x.length c).getLastD 0 = c := by
    rw [hN]
    exact getLastD_replicate _ c 0
  rw [e1, e2, e3, e4, e5, sum_map_mul_replicate, sum_map_mul_replicate]
  have hcast : ((t : ℚ) - 1) = ((t - 1 : Nat) : ℚ) := by
    rw [Nat.cast_sub ht1]
    norm_num
  rw [← hcast, hN]
  have ht0 : ((3 * t + 1 : ℕ) : ℚ) - 1 ≠ 0 := by
    push_cast
    have : (1 : ℚ) ≤ (t : ℚ) := by exact_mod_cast ht1
    intro hcon
    nlinarith
  field_simp
  ring

theorem simpson13_ok_len (x y : List ℚ) (v : ℚ) (h : simpson13 x y = .ok v) :
    3 ≤ x.length := by
  unfold simpson13 at h
  rcases hin : inputCheck x y with e | u
  · rw [hin] at h; simp at h
  · cases u
    rw [hin] at h
    simp only at h
    split_ifs at h with hp h1
    simp only [not_not] at hp
    omega

theorem simpson38_ok_len (x y : List ℚ) (v : ℚ) (h : simpson38 x y = .ok v) :
    4 ≤ x.length := by
  unfold simpson38 at h
  rcases hin : inputCheck x y with e | u
  · rw [hin] at h; simp at h
  · cases u
    rw [hin] at h
    simp only at h
    split_ifs at h with hp h1
    simp only [not_not] at hp
    omega

theorem autosimpson_const (x : List ℚ) (c v : ℚ)
    (h : autosimpson x (List.replicate x.length c) = .ok v) :
    v = c * (x.getLastD 0 - x.headD 0) := by
  have hin : inputCheck x (List.replicate x.length c) = .ok () :=
    inputCheck_ok _ _ (by simp)
  unfold autosimpson at h
  rw [hin] at h
  simp only [List.length_replicate] at h
  split_ifs at h with h2 h3
  · exact simpson13_const x c v h
  · exact simpson38_const x c v h
  · have hxt : (List.replicate x.length c).take (x.length - 3)
        = List.replicate ((x.take (x.length - 3)).length) c := by
      rw [take_replicate_q _ _ _ (by omega), List.length_take]
      congr 1
      omega
    have hxd : (List.replicate x.length c).drop (x.length - 4)
        = List.replicate ((x.drop (x.length - 4)).length) c := by
      rw [drop_replicate_q, List.length_drop]
    rw [hxt, hxd] at h
    rcases h13 : simpson13 (x.take (x.length - 3))
        (List.replicate ((x.take (x.length - 3)).length) c) with e | a1
    · rw [h13] at h; simp at h
    · rw [h13] at h
      simp only at h
      rcases h38 : simpson38 (x.drop (x.length - 4))
          (List.replicate ((x.drop (x.length - 4)).length) c) with e | a2
      · rw [h38] at h; simp at h
      · rw [h38] at h
        simp only [Except.ok.injEq] at h
        have ha1 := simpson13_const _ c a1 h13
        have ha2 := simpson38_const _ c a2 h38
        have hlen1 := simpson13_ok_len _ _ a1 h13
        have hlen2 := simpson38_ok_len _ _ a2 h38
        rw [List.length_take] at hlen1
        rw [List.length_drop] at hlen2
        have hN6 : 6 ≤ x.length := by omega
        have k1 : (x.take (x.length - 3)).headD 0 = x.headD 0 :=
          headD_take x _ (by omega)
        have k2 : (x.take (x.length - 3)).getLastD 0 = (x[x.length - 4]?).getD 0 := by
          rw [getLastD_take x _ (by omega) (by omega),
            show x.length - 3 - 1 = x.length - 4 by omega]
        have k3 : (x.drop (x.length - 4)).headD 0 = (x[x.length - 4]?).getD 0 :=
          headD_drop x _
        have k4 : (x.drop (x.length - 4)).getLastD 0 = x.getLastD 0 :=
          getLastD_drop x _ (by omega)
        rw [k1, k2] at ha1
        rw [k3, k4] at ha2
        rw [← h, ha1, ha2]
        ring

/-- Claim C7: on a constant sample series (`y = replicate c`, valid `x` of
the same length, at least two points) every quadrature rule that returns a
value at all returns `c * (x[last] - x[first])` — for the upper/lower
variant the two components sum to it. -/
theorem C7_constant_series_exact (x : List ℚ) (c : ℚ) (y : List ℚ)
    (hy : y = List.replicate x.length c) (hlen : 2 ≤ x.length) :
    (∀ v, lriemann x y = .ok v → v = c * (x.getLastD 0 - x.headD 0)) ∧
    (∀ v, rriemann x y = .ok v → v = c * (x.getLastD 0 - x.headD 0)) ∧
    (∀ v, trapezoidal x y = .ok v → v = c * (x.getLastD 0 - x.headD 0)) ∧
    (∀ u l, trapezoidal_upper_lower x y = .ok (u, l) →
      u + l = c * (x.getLastD 0 - x.headD 0)) ∧
    (∀ v, simpson13 x y = .ok v → v = c * (x.getLastD 0 - x.headD 0)) ∧
    (∀ v, simpson38 x y = .ok v → v = c * (x.getLastD 0 - x.headD 0)) ∧
    (∀ v, autosimpson x y = .ok v → v = c * (x.getLastD 0 - x.headD 0)) := by
  subst hy
  exact ⟨fun v => lriemann_const x c v, fun v => rriemann_const x c v,
    fun v => trapezoidal_const x c v,
    fun u l => trapezoidal_upper_lower_const x c u l,
    fun v => simpson13_const x c v, fun v => simpson38_const x c v,
    fun v => autosimpson_const x c v⟩

/-- Claim C7 (witness): on `x = [0, 1, 2]` with constant value `5` the
trapezoidal rule returns `10 = 5 * (x[last] - x[first])`. -/
theorem C7_witness :
    (10 : ℚ) = 5 * (([0, 1, 2] : List ℚ).getLastD 0 - ([0, 1, 2] : List ℚ).headD 0) :=
  (C7_constant_series_exact [0, 1, 2] 5 (List.replicate 3 5) rfl
    (by norm_num)).2.2.1 10
    (by norm_num [trapezoidal, trapSubAreas, inputCheck, subintervals, List.replicate])

end NumMethod
